import Mathlib

/-!
Verification of the nimbus strategy execution engine.

This file gives a shallow embedding, over exact rationals, of the grid price
generator, the active level selector, and the grid / DCA / martingale /
portfolio strategy state transitions, together with theorems about them.

Modelling conventions:
* JavaScript numbers are modelled as `ℚ`; `Math.round` is `round` (round half
  toward positive infinity, which agrees with JavaScript on rationals).
* The JavaScript falsy-or idiom `x || y` on optional numbers is `jsOr`:
  the default is taken both when the value is absent and when it is zero.
* `Math.pow(upper / lower, 1 / (n - 1))` (geometric grids) has no exact
  rational counterpart, so the geometric ratio is passed as an explicit
  parameter `geomRatio`; theorems about geometric mode constrain it by
  `geomRatio ^ (n - 1) = upper / lower`, the defining equation of the value
  the source computes.
* A JavaScript `Map` is an insertion-ordered association list with unique
  keys (`mapSet`, `mapGet`, `mapDelete`); a JavaScript `Set` of numbers is an
  insertion-ordered duplicate-free list (`setAdd`, membership by `contains`).
* Array `.sort` with a numeric comparator is the stable `List.mergeSort`.
* Exchange order identifiers are opaque; they are modelled as naturals.
-/

namespace Nimbus

/-- Order side, from `"buy" | "sell"` in the source. -/
inductive Side where
  | buy
  | sell
deriving DecidableEq, Repr

/-- Model of `GeneratedGridLevel` from `GridTypes.ts`: a price level with its
statically assigned side and its index in the generated array. -/
structure GeneratedGridLevel where
  price : ℚ
  side : Side
  index : ℕ
deriving DecidableEq, Repr

/-- Grid spacing mode from `GridTypes.ts`. -/
inductive GridMode where
  | arithmetic
  | geometric
deriving DecidableEq, Repr

/-- The fields of `GridConfig` (from `GridTypes.ts`) that
`generateGridLevels` reads.  Absent optional fields are `none`. -/
structure GridConfig where
  gridQuantity : ℕ
  upperBound : Option ℚ
  lowerBound : Option ℚ
  basePrice : Option ℚ
  gridMode : GridMode
  activeLevels : Option ℕ
deriving DecidableEq, Repr

/-- Effective bounds component of `GridGenerationResult`. -/
structure EffectiveBounds where
  upperBound : ℚ
  lowerBound : ℚ
deriving DecidableEq, Repr

/-- Model of `GridGenerationResult` from `GridTypes.ts`. -/
structure GridGenerationResult where
  levels : List GeneratedGridLevel
  nearestIndex : ℕ
  effectiveBounds : EffectiveBounds
deriving DecidableEq, Repr

/-- JavaScript `x || y` for an optional number `x`: the default `y` is used
when `x` is absent or zero (zero is falsy in JavaScript). -/
def jsOr (x : Option ℚ) (y : ℚ) : ℚ :=
  match x with
  | none => y
  | some v => if v = 0 then y else v

/-- JavaScript `x || y` for an optional natural. -/
def jsOrNat (x : Option ℕ) (y : ℕ) : ℕ :=
  match x with
  | none => y
  | some v => if v = 0 then y else v

/-- Model of `generateGridPrices` from `GridLevelGenerator.ts`: arithmetic or
geometric progression of `totalGrids` prices from `lowerBound` to
`upperBound`.  In geometric mode the source computes
`ratio = Math.pow(upperBound / lowerBound, 1 / (totalGrids - 1))`; this exact
real value is supplied as `geomRatio` (see the module docstring). -/
def generateGridPrices (lowerBound upperBound : ℚ) (totalGrids : ℕ)
    (mode : GridMode) (geomRatio : ℚ) : List ℚ :=
  match mode with
  | GridMode.geometric =>
      (List.range totalGrids).map (fun i => lowerBound * geomRatio ^ i)
  | GridMode.arithmetic =>
      (List.range totalGrids).map (fun (i : ℕ) =>
        lowerBound + (upperBound - lowerBound) / ((totalGrids : ℚ) - 1) * (i : ℚ))

/-- Model of `roundPrice` from `GridLevelGenerator.ts`: tier-dependent decimal
rounding, coarser for higher-priced assets. -/
def roundPrice (price : ℚ) : ℚ :=
  if 100000 ≤ price then ((round price : ℤ) : ℚ)
  else if 1000 ≤ price then ((round (price * 10) : ℤ) : ℚ) / 10
  else if 100 ≤ price then ((round (price * 100) : ℤ) : ℚ) / 100
  else if 10 ≤ price then ((round (price * 1000) : ℤ) : ℚ) / 1000
  else ((round (price * 10000) : ℤ) : ℚ) / 10000

/-- Model of `findNearestPriceIndex` from `GridLevelGenerator.ts`: index of the first
price at minimal absolute distance from the target (the running minimum
starts at infinity, modelled by `none`). -/
def findNearestPriceIndex (gridPrices : List ℚ) (targetPrice : ℚ) : ℕ :=
  (gridPrices.enum.foldl
    (fun acc p =>
      let distance := |p.2 - targetPrice|
      match acc.2 with
      | none => (p.1, some distance)
      | some minDistance =>
          if distance < minDistance then (p.1, some distance) else acc)
    ((0 : ℕ), (none : Option ℚ))).1

/-- Model of `generateGridLevels` from `GridLevelGenerator.ts`: resolve the reference
price and the effective bounds, validate them, generate the raw prices, round
them and assign sides, and locate the index nearest the reference price.
Thrown errors are modelled by `Except.error`. -/
def generateGridLevels (config : GridConfig) (currentPrice : Option ℚ)
    (geomRatio : ℚ) : Except String GridGenerationResult :=
  let referencePrice := jsOr currentPrice (jsOr config.basePrice 50000)
  let effectiveUpperBound := jsOr config.upperBound (referencePrice * (6/5))
  let effectiveLowerBound := jsOr config.lowerBound (referencePrice * (4/5))
  if effectiveUpperBound ≤ effectiveLowerBound then
    Except.error "Invalid bounds: upperBound must be greater than lowerBound"
  else if config.gridQuantity < 2 then
    Except.error "Invalid gridQuantity. Must be at least 2."
  else
    let gridPrices := generateGridPrices effectiveLowerBound
      effectiveUpperBound config.gridQuantity config.gridMode geomRatio
    let levels := gridPrices.enum.map (fun p =>
      { price := roundPrice p.2
        side := if p.2 < referencePrice then Side.buy else Side.sell
        index := p.1 : GeneratedGridLevel })
    Except.ok
      { levels := levels
        nearestIndex := findNearestPriceIndex gridPrices referencePrice
        effectiveBounds :=
          { upperBound := effectiveUpperBound
            lowerBound := effectiveLowerBound } }

/-- Result record of `getActiveLevels`. -/
structure ActiveLevelsResult where
  buyLevels : List GeneratedGridLevel
  sellLevels : List GeneratedGridLevel
  activeLevelIndices : List ℕ
deriving DecidableEq, Repr

/-- JavaScript `Set.add` on an insertion-ordered duplicate-free list. -/
def setAdd (s : List ℕ) (x : ℕ) : List ℕ :=
  if x ∈ s then s else s ++ [x]

/-- Model of `getActiveLevels` from `GridLevelGenerator.ts`: partition the levels into
unexecuted buy candidates (price strictly below current) and unexecuted sell
candidates (price strictly above current), sort buys descending and sells
ascending by price (stable, as the ECMAScript `sort`), and keep the first
`activeLevelsPerSide` of each side, collecting the selected indices. -/
def getActiveLevels (allLevels : List GeneratedGridLevel) (currentPrice : ℚ)
    (activeLevelsPerSide : ℕ) (executedLevelIndices : List ℕ) :
    ActiveLevelsResult :=
  let potentialBuyLevels :=
    (allLevels.filter (fun l =>
      decide (l.price < currentPrice) &&
        !(executedLevelIndices.contains l.index))).mergeSort
      (fun a b => decide (b.price ≤ a.price))
  let potentialSellLevels :=
    (allLevels.filter (fun l =>
      decide (currentPrice < l.price) &&
        !(executedLevelIndices.contains l.index))).mergeSort
      (fun a b => decide (a.price ≤ b.price))
  let buyLevels := potentialBuyLevels.take activeLevelsPerSide
  let sellLevels := potentialSellLevels.take activeLevelsPerSide
  { buyLevels := buyLevels
    sellLevels := sellLevels
    activeLevelIndices :=
      ((buyLevels ++ sellLevels).map (fun l => l.index)).foldl setAdd [] }

/-- Result record of `getDeterministicActiveLevels`. -/
structure DeterministicActiveLevels where
  allLevels : List GeneratedGridLevel
  activeBuyLevels : List GeneratedGridLevel
  activeSellLevels : List GeneratedGridLevel
  activeLevelIndices : List ℕ
deriving DecidableEq, Repr

/-- The per-side active level count used by `getDeterministicActiveLevels`:
`Math.max(1, Math.min(10, config.activeLevels || 2))`. -/
def clampedActiveLevels (config : GridConfig) : ℕ :=
  max 1 (min 10 (jsOrNat config.activeLevels 2))

/-- Model of `getDeterministicActiveLevels` from `GridLevelGenerator.ts`: generate the
full level set for the configuration at the current price, then select the
active levels with the clamped per-side count. -/
def getDeterministicActiveLevels (config : GridConfig) (currentPrice : ℚ)
    (geomRatio : ℚ) (executedLevelIndices : List ℕ) :
    Except String DeterministicActiveLevels :=
  match generateGridLevels config (some currentPrice) geomRatio with
  | Except.error e => Except.error e
  | Except.ok gridResult =>
      let r := getActiveLevels gridResult.levels currentPrice
        (clampedActiveLevels config) executedLevelIndices
      Except.ok
        { allLevels := gridResult.levels
          activeBuyLevels := r.buyLevels
          activeSellLevels := r.sellLevels
          activeLevelIndices := r.activeLevelIndices }

/-! ### Bounds of the generated raw prices -/

/-- The arithmetic branch of `generateGridPrices`, unfolded. -/
theorem generateGridPrices_arith (lo hi : ℚ) (n : ℕ) (ratio : ℚ) :
    generateGridPrices lo hi n GridMode.arithmetic ratio
      = (List.range n).map
          (fun (i : ℕ) => lo + (hi - lo) / ((n : ℚ) - 1) * (i : ℚ)) := rfl

/-- The geometric branch of `generateGridPrices`, unfolded. -/
theorem generateGridPrices_geom (lo hi : ℚ) (n : ℕ) (ratio : ℚ) :
    generateGridPrices lo hi n GridMode.geometric ratio
      = (List.range n).map (fun i => lo * ratio ^ i) := rfl

/-- Arithmetic-mode raw prices stay within the effective bounds. -/
theorem mem_generateGridPrices_arith_bounds (lo hi : ℚ) (n : ℕ) (ratio : ℚ)
    (h2 : 2 ≤ n) (hlt : lo < hi) :
    ∀ p ∈ generateGridPrices lo hi n GridMode.arithmetic ratio,
      lo ≤ p ∧ p ≤ hi := by
  intro p hp
  rw [generateGridPrices_arith, List.mem_map] at hp
  obtain ⟨i, hin, rfl⟩ := hp
  rw [List.mem_range] at hin
  have hd : (0 : ℚ) < (n : ℚ) - 1 := by
    have h2q : (2 : ℚ) ≤ (n : ℚ) := by exact_mod_cast h2
    linarith
  have hstep : 0 ≤ (hi - lo) / ((n : ℚ) - 1) := by
    apply div_nonneg <;> linarith
  have hi0 : (0 : ℚ) ≤ (i : ℚ) := by positivity
  constructor
  · nlinarith
  · have hiq : (i : ℚ) ≤ (n : ℚ) - 1 := by
      have hsucc : ((i : ℚ)) + 1 ≤ (n : ℚ) := by exact_mod_cast hin
      linarith
    have hmul : (hi - lo) / ((n : ℚ) - 1) * (i : ℚ)
        ≤ (hi - lo) / ((n : ℚ) - 1) * ((n : ℚ) - 1) := by nlinarith
    have heq : (hi - lo) / ((n : ℚ) - 1) * ((n : ℚ) - 1) = hi - lo := by
      field_simp
    linarith

/-- Geometric-mode raw prices stay within the effective bounds, for the exact
ratio characterised by `ratio ^ (n - 1) = hi / lo`. -/
theorem mem_generateGridPrices_geom_bounds (lo hi : ℚ) (n : ℕ) (ratio : ℚ)
    (h2 : 2 ≤ n) (hlo : 0 < lo) (hlt : lo < hi) (hratio : 0 < ratio)
    (hr : ratio ^ (n - 1) = hi / lo) :
    ∀ p ∈ generateGridPrices lo hi n GridMode.geometric ratio,
      lo ≤ p ∧ p ≤ hi := by
  intro p hp
  rw [generateGridPrices_geom, List.mem_map] at hp
  obtain ⟨i, hin, rfl⟩ := hp
  rw [List.mem_range] at hin
  have hquot : 1 < hi / lo := (one_lt_div hlo).mpr hlt
  have hone : 1 ≤ ratio := by
    by_contra hcon
    push_neg at hcon
    have hle1 : ratio ^ (n - 1) ≤ 1 := pow_le_one₀ hratio.le hcon.le
    rw [hr] at hle1
    linarith
  have hgeq : (1 : ℚ) ≤ ratio ^ i := one_le_pow₀ hone
  constructor
  · nlinarith
  · have hle : ratio ^ i ≤ ratio ^ (n - 1) := pow_le_pow_right₀ hone (by omega)
    rw [hr] at hle
    have hfin : lo * (hi / lo) = hi := by field_simp
    nlinarith

/-! ### C1: determinism and bounds of `generateGridLevels` -/

/-- C1 (amended): for every grid configuration accepted by the validation
(`upper > lower`, `count ≥ 2`; in geometric mode with the exact positive
ratio characterised by `ratio ^ (count-1) = upper/lower` and a positive lower
bound), `generateGridLevels` is deterministic — two calls with identical
inputs yield identical results — and every returned level price is the
tier-rounding `roundPrice p` of an exact price `p` that lies within
`[effectiveLowerBound, effectiveUpperBound]`.  (The rounded price itself can
leave the interval by up to the rounding granularity; see the
counterexample.) -/
theorem generateGridLevels_deterministic_bounds
    (config : GridConfig) (currentPrice : Option ℚ) (geomRatio : ℚ)
    (r : GridGenerationResult)
    (hok : generateGridLevels config currentPrice geomRatio = Except.ok r)
    (hgeom : config.gridMode = GridMode.geometric →
      0 < r.effectiveBounds.lowerBound ∧ 0 < geomRatio ∧
      geomRatio ^ (config.gridQuantity - 1)
        = r.effectiveBounds.upperBound / r.effectiveBounds.lowerBound) :
    generateGridLevels config currentPrice geomRatio
        = generateGridLevels config currentPrice geomRatio ∧
    ∀ l ∈ r.levels, ∃ p : ℚ, l.price = roundPrice p ∧
      r.effectiveBounds.lowerBound ≤ p ∧
      p ≤ r.effectiveBounds.upperBound := by
  refine ⟨rfl, ?_⟩
  simp only [generateGridLevels] at hok
  split_ifs at hok with hb hq
  rw [Except.ok.injEq] at hok
  subst hok
  simp only at hgeom ⊢
  intro l hl
  rw [List.mem_map] at hl
  obtain ⟨⟨i, p⟩, hmem, rfl⟩ := hl
  refine ⟨p, rfl, ?_⟩
  have hp : p ∈ generateGridPrices
      (jsOr config.lowerBound (jsOr currentPrice (jsOr config.basePrice 50000) * (4/5)))
      (jsOr config.upperBound (jsOr currentPrice (jsOr config.basePrice 50000) * (6/5)))
      config.gridQuantity config.gridMode geomRatio := by
    rw [List.mk_mem_enum_iff_getElem?] at hmem
    exact List.getElem?_mem hmem
  push_neg at hb
  have h2 : 2 ≤ config.gridQuantity := by omega
  cases hmode : config.gridMode with
  | arithmetic =>
      rw [hmode] at hp
      exact mem_generateGridPrices_arith_bounds _ _ _ _ h2 hb p hp
  | geometric =>
      rw [hmode] at hp
      obtain ⟨hlo, hrat, hchar⟩ := hgeom hmode
      exact mem_generateGridPrices_geom_bounds _ _ _ _ h2 hlo hb hrat hchar p hp

/-- The configuration of the C1 counterexample: explicit bounds
`[1000.04, 2000]`, two arithmetic levels. -/
def gridCfgCex : GridConfig :=
  { gridQuantity := 2, upperBound := some 2000,
    lowerBound := some (1000.04 : ℚ), basePrice := none,
    gridMode := GridMode.arithmetic, activeLevels := none }

/-- C1 counterexample: with lower bound 1000.04 the lowest level's rounded
price is 1000 (the 1000-to-100000 tier rounds to one decimal), which lies
strictly below `effectiveLowerBound`, so the claim that every returned
(rounded) level price lies within the effective bounds is false. -/
theorem generateGridLevels_rounded_below_lower_bound :
    ∃ r : GridGenerationResult,
      generateGridLevels gridCfgCex (some 1500) 1 = Except.ok r ∧
      ∃ l ∈ r.levels, l.price < r.effectiveBounds.lowerBound := by
  refine ⟨{ levels := [⟨1000, Side.buy, 0⟩, ⟨2000, Side.sell, 1⟩],
            nearestIndex := 0,
            effectiveBounds := { upperBound := 2000,
                                 lowerBound := (1000.04 : ℚ) } }, ?_, ?_⟩
  · norm_num [generateGridLevels, gridCfgCex, jsOr, generateGridPrices,
      roundPrice, findNearestPriceIndex, List.enum, List.enumFrom,
      round_eq, Int.floor_eq_iff, abs_of_pos, abs_of_neg, abs_of_nonneg]
  · exact ⟨⟨1000, Side.buy, 0⟩, by simp, by norm_num⟩

/-- Witness configuration for C1: geometric grid over `[1, 4]` with three
levels; the exact ratio is 2. -/
def gridCfgGeomW : GridConfig :=
  { gridQuantity := 3, upperBound := some 4, lowerBound := some 1,
    basePrice := none, gridMode := GridMode.geometric, activeLevels := none }

/-- Expected generation result for the C1 witness configuration. -/
def gridGeomWRes : GridGenerationResult :=
  { levels := [⟨1, Side.buy, 0⟩, ⟨2, Side.sell, 1⟩, ⟨4, Side.sell, 2⟩],
    nearestIndex := 1,
    effectiveBounds := { upperBound := 4, lowerBound := 1 } }

/-- Witness for the amended C1 theorem at a concrete geometric grid,
instantiated at its middle level (price 2, index 1). -/
theorem generateGridLevels_deterministic_bounds_witness :
    ∃ p : ℚ, (⟨2, Side.sell, 1⟩ : GeneratedGridLevel).price = roundPrice p ∧
      gridGeomWRes.effectiveBounds.lowerBound ≤ p ∧
      p ≤ gridGeomWRes.effectiveBounds.upperBound :=
  (generateGridLevels_deterministic_bounds gridCfgGeomW (some 2) 2
    gridGeomWRes
    (by norm_num [generateGridLevels, gridCfgGeomW, jsOr, generateGridPrices,
      roundPrice, findNearestPriceIndex, List.enum, List.enumFrom,
      gridGeomWRes, round_eq, Int.floor_eq_iff, abs_of_pos, abs_of_neg,
      abs_of_nonneg])
    (by norm_num [gridCfgGeomW, gridGeomWRes])).2
    ⟨2, Side.sell, 1⟩ (by simp [gridGeomWRes])

/-! ### C9: arithmetic / geometric progression of the raw prices -/

/-- C9 (amended): the raw (pre-rounding) prices form exact progressions —
in arithmetic mode level `i` is `lower + i·(upper−lower)/(count−1)`, so
consecutive raw prices differ by the constant step, and in geometric mode
level `i` is `lower · ratio^i` (with `ratio` the exact value of
`(upper/lower)^(1/(count−1))`, characterised by
`ratio ^ (count−1) = upper/lower`), so consecutive raw prices have the
constant ratio.  The prices returned by `generateGridLevels` are the
tier-roundings `roundPrice` of these raw prices (so the returned, rounded
prices need not satisfy the exact progression laws; see the
counterexample). -/
theorem gridPrices_progressions (lo hi : ℚ) (n : ℕ) (ratio : ℚ)
    (h2 : 2 ≤ n) (hratio : 0 < ratio) (hr : ratio ^ (n - 1) = hi / lo) :
    (∀ i : ℕ, i < n →
      (generateGridPrices lo hi n GridMode.arithmetic ratio).getD i 0
        = lo + (hi - lo) / ((n : ℚ) - 1) * (i : ℚ)) ∧
    (∀ i : ℕ, i + 1 < n →
      (generateGridPrices lo hi n GridMode.arithmetic ratio).getD (i+1) 0
        - (generateGridPrices lo hi n GridMode.arithmetic ratio).getD i 0
        = (hi - lo) / ((n : ℚ) - 1)) ∧
    (∀ i : ℕ, i < n →
      (generateGridPrices lo hi n GridMode.geometric ratio).getD i 0
        = lo * ratio ^ i) ∧
    (∀ i : ℕ, i + 1 < n →
      (generateGridPrices lo hi n GridMode.geometric ratio).getD (i+1) 0
        = ratio * (generateGridPrices lo hi n GridMode.geometric ratio).getD i 0) ∧
    (∀ (config : GridConfig) (cp : Option ℚ) (gr : ℚ)
        (r : GridGenerationResult),
      generateGridLevels config cp gr = Except.ok r →
      r.levels.map GeneratedGridLevel.price
        = (generateGridPrices r.effectiveBounds.lowerBound
            r.effectiveBounds.upperBound config.gridQuantity
            config.gridMode gr).map roundPrice) := by
  have harith : ∀ i : ℕ, i < n →
      (generateGridPrices lo hi n GridMode.arithmetic ratio).getD i 0
        = lo + (hi - lo) / ((n : ℚ) - 1) * (i : ℚ) := by
    intro i hin
    rw [generateGridPrices_arith, List.getD_eq_getElem?_getD,
      List.getElem?_map, List.getElem?_range hin]
    rfl
  have hgeo : ∀ i : ℕ, i < n →
      (generateGridPrices lo hi n GridMode.geometric ratio).getD i 0
        = lo * ratio ^ i := by
    intro i hin
    rw [generateGridPrices_geom, List.getD_eq_getElem?_getD,
      List.getElem?_map, List.getElem?_range hin]
    rfl
  refine ⟨harith, ?_, hgeo, ?_, ?_⟩
  · intro i hin
    rw [harith i (by omega), harith (i+1) (by omega)]
    push_cast
    ring
  · intro i hin
    rw [hgeo i (by omega), hgeo (i+1) (by omega)]
    ring
  · intro config cp gr r hok
    simp only [generateGridLevels] at hok
    split_ifs at hok with hb hq
    rw [Except.ok.injEq] at hok
    subst hok
    simp only [List.map_map]
    have hsnd : ∀ (l : List ℚ),
        l.enum.map (fun p => roundPrice p.2) = l.map roundPrice := by
      intro l
      have h1 : l.enum.map (fun p => roundPrice p.2)
          = (l.enum.map Prod.snd).map roundPrice := by
        rw [List.map_map]
        rfl
      rw [h1, List.enum_map_snd]
    exact hsnd _

/-- Configuration for the C9 counterexample: four arithmetic levels on
`[1, 2]`, step `1/3`. -/
def gridCfgProgCex : GridConfig :=
  { gridQuantity := 4, upperBound := some 2, lowerBound := some 1,
    basePrice := none, gridMode := GridMode.arithmetic, activeLevels := none }

/-- C9 counterexample: the returned (tier-rounded) prices are
`[1, 1.3333, 1.6667, 2]`, whose consecutive differences `0.3333` and
`0.3334` are not equal, so the claim that the *returned* consecutive level
prices differ by the constant step is false; only the pre-rounding prices
do. -/
theorem generateGridLevels_rounded_steps_unequal :
    ∃ r : GridGenerationResult,
      generateGridLevels gridCfgProgCex (some (3/2)) 1 = Except.ok r ∧
      r.levels.map GeneratedGridLevel.price
        = [1, 13333/10000, 16667/10000, 2] ∧
      ¬ ((r.levels.map GeneratedGridLevel.price).getD 1 0
            - (r.levels.map GeneratedGridLevel.price).getD 0 0
          = (r.levels.map GeneratedGridLevel.price).getD 2 0
            - (r.levels.map GeneratedGridLevel.price).getD 1 0) := by
  refine ⟨{ levels := [⟨1, Side.buy, 0⟩, ⟨13333/10000, Side.buy, 1⟩,
                       ⟨16667/10000, Side.sell, 2⟩, ⟨2, Side.sell, 3⟩],
            nearestIndex := 1,
            effectiveBounds := { upperBound := 2, lowerBound := 1 } },
          ?_, by norm_num, by norm_num⟩
  norm_num [generateGridLevels, gridCfgProgCex, jsOr, generateGridPrices,
    roundPrice, findNearestPriceIndex, List.enum, List.enumFrom,
    round_eq, Int.floor_eq_iff, abs_of_pos, abs_of_neg, abs_of_nonneg]

/-- Witness for the C9 progression theorem on the grids over `[1, 4]` with
three levels and exact geometric ratio 2. -/
theorem gridPrices_progressions_witness :
    (generateGridPrices 1 4 3 GridMode.geometric 2).getD 1 0
      = 2 * (generateGridPrices 1 4 3 GridMode.geometric 2).getD 0 0 ∧
    (generateGridPrices 1 4 3 GridMode.arithmetic 2).getD 1 0
      - (generateGridPrices 1 4 3 GridMode.arithmetic 2).getD 0 0
      = (4 - 1) / (((3 : ℕ) : ℚ) - 1) := by
  have h := gridPrices_progressions 1 4 3 2 (by norm_num) (by norm_num)
    (by norm_num)
  exact ⟨h.2.2.2.1 0 (by norm_num), h.2.1 0 (by norm_num)⟩

/-! ### C2: the active level selector -/

/-- Unfolding of the buy side of `getActiveLevels`. -/
theorem getActiveLevels_buyLevels (allLevels : List GeneratedGridLevel)
    (currentPrice : ℚ) (N : ℕ) (executed : List ℕ) :
    (getActiveLevels allLevels currentPrice N executed).buyLevels
      = ((allLevels.filter (fun l =>
            decide (l.price < currentPrice) &&
              !(executed.contains l.index))).mergeSort
          (fun a b => decide (b.price ≤ a.price))).take N := rfl

/-- Unfolding of the sell side of `getActiveLevels`. -/
theorem getActiveLevels_sellLevels (allLevels : List GeneratedGridLevel)
    (currentPrice : ℚ) (N : ℕ) (executed : List ℕ) :
    (getActiveLevels allLevels currentPrice N executed).sellLevels
      = ((allLevels.filter (fun l =>
            decide (currentPrice < l.price) &&
              !(executed.contains l.index))).mergeSort
          (fun a b => decide (a.price ≤ b.price))).take N := rfl

/-- Generic properties of filter-sort-take selection: the selection has at
most `N` elements, each selected element is a filtered element of the input,
the selection is sorted, and every filtered element left out is dominated by
(sorts no earlier than) every selected element. -/
theorem take_mergeSort_sel {α : Type} (l : List α) (f : α → Bool)
    (le : α → α → Bool)
    (htrans : ∀ a b c, le a b = true → le b c = true → le a c = true)
    (htotal : ∀ a b, (le a b || le b a) = true) (N : ℕ) :
    (((l.filter f).mergeSort le).take N).length ≤ N ∧
    (∀ x ∈ ((l.filter f).mergeSort le).take N, x ∈ l ∧ f x = true) ∧
    (((l.filter f).mergeSort le).take N).Pairwise
      (fun a b => le a b = true) ∧
    (∀ x ∈ l, f x = true → x ∉ ((l.filter f).mergeSort le).take N →
      ∀ y ∈ ((l.filter f).mergeSort le).take N, le y x = true) := by
  have hsorted : ((l.filter f).mergeSort le).Pairwise
      (fun a b => le a b = true) :=
    List.sorted_mergeSort htrans htotal (l.filter f)
  refine ⟨?_, ?_, ?_, ?_⟩
  · rw [List.length_take]
    exact min_le_left _ _
  · intro x hx
    have hx2 : x ∈ (l.filter f).mergeSort le :=
      (List.take_sublist _ _).subset hx
    rw [List.mem_mergeSort, List.mem_filter] at hx2
    exact hx2
  · exact hsorted.sublist (List.take_sublist _ _)
  · intro x hxl hf hxout y hy
    have hxs : x ∈ (l.filter f).mergeSort le := by
      rw [List.mem_mergeSort, List.mem_filter]
      exact ⟨hxl, hf⟩
    have hxdrop : x ∈ ((l.filter f).mergeSort le).drop N := by
      rcases (List.mem_append.mp
        (by rw [List.take_append_drop]; exact hxs :
          x ∈ ((l.filter f).mergeSort le).take N
            ++ ((l.filter f).mergeSort le).drop N)) with h | h
      · exact absurd h hxout
      · exact h
    exact List.Sorted.rel_of_mem_take_of_mem_drop hsorted hy hxdrop

/-- Boolean filter of the buy side, as a proposition. -/
theorem buyFilter_eq_true_iff (currentPrice : ℚ) (executed : List ℕ)
    (l : GeneratedGridLevel) :
    ((decide (l.price < currentPrice) && !(executed.contains l.index))
        = true)
      ↔ (l.price < currentPrice ∧ l.index ∉ executed) := by
  simp [List.contains]

/-- Boolean filter of the sell side, as a proposition. -/
theorem sellFilter_eq_true_iff (currentPrice : ℚ) (executed : List ℕ)
    (l : GeneratedGridLevel) :
    ((decide (currentPrice < l.price) && !(executed.contains l.index))
        = true)
      ↔ (currentPrice < l.price ∧ l.index ∉ executed) := by
  simp [List.contains]

/-- C2: for every level list, current price, per-side count `N` and
executed-index set, `getActiveLevels` returns at most `N` levels per side;
every returned level is an input level strictly on the correct side of the
current price whose index is not executed; the buy side is ordered by
descending price and the sell side by ascending price (nearest to the
current price first); and every unexecuted candidate left out is no nearer
to the current price than any selected level of its side. -/
theorem getActiveLevels_spec (allLevels : List GeneratedGridLevel)
    (currentPrice : ℚ) (N : ℕ) (executed : List ℕ) :
    (getActiveLevels allLevels currentPrice N executed).buyLevels.length
        ≤ N ∧
    (getActiveLevels allLevels currentPrice N executed).sellLevels.length
        ≤ N ∧
    (∀ l ∈ (getActiveLevels allLevels currentPrice N executed).buyLevels,
      l ∈ allLevels ∧ l.price < currentPrice ∧ l.index ∉ executed) ∧
    (∀ l ∈ (getActiveLevels allLevels currentPrice N executed).sellLevels,
      l ∈ allLevels ∧ currentPrice < l.price ∧ l.index ∉ executed) ∧
    (getActiveLevels allLevels currentPrice N executed).buyLevels.Pairwise
      (fun a b => b.price ≤ a.price) ∧
    (getActiveLevels allLevels currentPrice N executed).sellLevels.Pairwise
      (fun a b => a.price ≤ b.price) ∧
    (∀ l ∈ allLevels, l.price < currentPrice → l.index ∉ executed →
      l ∉ (getActiveLevels allLevels currentPrice N executed).buyLevels →
      ∀ b ∈ (getActiveLevels allLevels currentPrice N executed).buyLevels,
        l.price ≤ b.price) ∧
    (∀ l ∈ allLevels, currentPrice < l.price → l.index ∉ executed →
      l ∉ (getActiveLevels allLevels currentPrice N executed).sellLevels →
      ∀ s ∈ (getActiveLevels allLevels currentPrice N executed).sellLevels,
        s.price ≤ l.price) := by
  have hb := take_mergeSort_sel allLevels
    (fun l => decide (l.price < currentPrice) && !(executed.contains l.index))
    (fun a b => decide (b.price ≤ a.price))
    (fun a b c hab hbc => by
      simp only [decide_eq_true_eq] at hab hbc ⊢
      exact le_trans hbc hab)
    (fun a b => by
      simp only [Bool.or_eq_true, decide_eq_true_eq]
      exact le_total b.price a.price)
    N
  have hs := take_mergeSort_sel allLevels
    (fun l => decide (currentPrice < l.price) && !(executed.contains l.index))
    (fun a b => decide (a.price ≤ b.price))
    (fun a b c hab hbc => by
      simp only [decide_eq_true_eq] at hab hbc ⊢
      exact le_trans hab hbc)
    (fun a b => by
      simp only [Bool.or_eq_true, decide_eq_true_eq]
      exact le_total a.price b.price)
    N
  obtain ⟨hb1, hb2, hb3, hb4⟩ := hb
  obtain ⟨hs1, hs2, hs3, hs4⟩ := hs
  rw [getActiveLevels_buyLevels, getActiveLevels_sellLevels]
  refine ⟨hb1, hs1, ?_, ?_, ?_, ?_, ?_, ?_⟩
  · intro l hl
    obtain ⟨hmem, hf⟩ := hb2 l hl
    obtain ⟨h1, h2⟩ := (buyFilter_eq_true_iff currentPrice executed l).mp hf
    exact ⟨hmem, h1, h2⟩
  · intro l hl
    obtain ⟨hmem, hf⟩ := hs2 l hl
    obtain ⟨h1, h2⟩ := (sellFilter_eq_true_iff currentPrice executed l).mp hf
    exact ⟨hmem, h1, h2⟩
  · exact hb3.imp (fun h => by simpa using h)
  · exact hs3.imp (fun h => by simpa using h)
  · intro l hl h1 h2 hnot b hbmem
    have := hb4 l hl
      ((buyFilter_eq_true_iff currentPrice executed l).mpr ⟨h1, h2⟩)
      hnot b hbmem
    simpa using this
  · intro l hl h1 h2 hnot s hsmem
    have := hs4 l hl
      ((sellFilter_eq_true_iff currentPrice executed l).mpr ⟨h1, h2⟩)
      hnot s hsmem
    simpa using this

/-- Level list used by the C2 and C10 witnesses. -/
def lvlsC2w : List GeneratedGridLevel :=
  [⟨10, Side.buy, 0⟩, ⟨20, Side.buy, 1⟩, ⟨30, Side.sell, 2⟩,
   ⟨40, Side.sell, 3⟩]

/-- Witness for C2: with current price 25, one active level per side and
index 3 executed, the buy side has at most one level, and the left-out buy
candidate at price 10 is no nearer to the market than any selected buy
level. -/
theorem getActiveLevels_spec_witness :
    (getActiveLevels lvlsC2w 25 1 [3]).buyLevels.length ≤ 1 ∧
    (∀ b ∈ (getActiveLevels lvlsC2w 25 1 [3]).buyLevels,
      (10 : ℚ) ≤ b.price) := by
  have h := getActiveLevels_spec lvlsC2w 25 1 [3]
  refine ⟨h.1, ?_⟩
  refine h.2.2.2.2.2.2.1 (⟨10, Side.buy, 0⟩ : GeneratedGridLevel)
    (by simp [lvlsC2w]) (by norm_num) (by simp) ?_
  norm_num [getActiveLevels_buyLevels, lvlsC2w, List.filter,
    List.mergeSort, List.merge, List.contains]

/-- C10: a level whose price equals the current price exactly is excluded
from both the buy and the sell side of `getActiveLevels` (both comparisons
are strict), whatever the per-side count and executed set. -/
theorem getActiveLevels_excludes_current_price
    (allLevels : List GeneratedGridLevel) (currentPrice : ℚ) (N : ℕ)
    (executed : List ℕ) (l : GeneratedGridLevel)
    (hprice : l.price = currentPrice) :
    l ∉ (getActiveLevels allLevels currentPrice N executed).buyLevels ∧
    l ∉ (getActiveLevels allLevels currentPrice N executed).sellLevels := by
  constructor
  · intro hl
    rw [getActiveLevels_buyLevels] at hl
    have hf := ((take_mergeSort_sel allLevels
      (fun l => decide (l.price < currentPrice) &&
        !(executed.contains l.index))
      (fun a b => decide (b.price ≤ a.price))
      (fun a b c hab hbc => by
        simp only [decide_eq_true_eq] at hab hbc ⊢
        exact le_trans hbc hab)
      (fun a b => by
        simp only [Bool.or_eq_true, decide_eq_true_eq]
        exact le_total b.price a.price)
      N).2.1 l hl).2
    obtain ⟨h1, _⟩ := (buyFilter_eq_true_iff currentPrice executed l).mp hf
    rw [hprice] at h1
    exact lt_irrefl _ h1
  · intro hl
    rw [getActiveLevels_sellLevels] at hl
    have hf := ((take_mergeSort_sel allLevels
      (fun l => decide (currentPrice < l.price) &&
        !(executed.contains l.index))
      (fun a b => decide (a.price ≤ b.price))
      (fun a b c hab hbc => by
        simp only [decide_eq_true_eq] at hab hbc ⊢
        exact le_trans hab hbc)
      (fun a b => by
        simp only [Bool.or_eq_true, decide_eq_true_eq]
        exact le_total a.price b.price)
      N).2.1 l hl).2
    obtain ⟨h1, _⟩ := (sellFilter_eq_true_iff currentPrice executed l).mp hf
    rw [hprice] at h1
    exact lt_irrefl _ h1

/-- Witness for C10: the level priced 25 is selected on neither side when
the current price is 25. -/
theorem getActiveLevels_excludes_current_price_witness :
    (⟨25, Side.sell, 5⟩ : GeneratedGridLevel)
        ∉ (getActiveLevels (⟨25, Side.sell, 5⟩ :: lvlsC2w) 25 3 []).buyLevels
      ∧ (⟨25, Side.sell, 5⟩ : GeneratedGridLevel)
        ∉ (getActiveLevels
            (⟨25, Side.sell, 5⟩ :: lvlsC2w) 25 3 []).sellLevels :=
  getActiveLevels_excludes_current_price (⟨25, Side.sell, 5⟩ :: lvlsC2w)
    25 3 [] ⟨25, Side.sell, 5⟩ rfl

/-! ### C4: DCA position updates -/

/-- An order-fill event (`OrderFill` in `IExchange`): the fields the
strategies read.  Order identifiers are opaque and modelled as naturals. -/
structure OrderFill where
  orderId : ℕ
  side : Side
  size : ℚ
  price : ℚ
deriving DecidableEq, Repr

/-- The numeric fields of `DCAPosition` that `updateDCAPosition` touches
(daily counters, timestamps and history are irrelevant to the claims). -/
structure DCAPosition where
  total_orders : ℕ
  total_invested : ℚ
  average_cost : ℚ
  current_position : ℚ
deriving DecidableEq, Repr

/-- The freshly constructed DCA position: all numeric fields zero. -/
def initialDCAPosition : DCAPosition :=
  { total_orders := 0, total_invested := 0, average_cost := 0,
    current_position := 0 }

/-- Model of `updateDCAPosition` from the DCA strategy: a buy fill accumulates
invested capital and position and recomputes the running average cost (only
when the resulting position is positive); a sell fill reduces the position,
floored at zero, and leaves `total_invested` and `average_cost` unchanged. -/
def updateDCAPosition (position : DCAPosition) (fill : OrderFill) :
    DCAPosition :=
  if fill.side = Side.buy then
    let newInvestment := fill.size * fill.price
    let totalInvested := position.total_invested + newInvestment
    let totalPosition := position.current_position + fill.size
    { position with
      average_cost := if 0 < totalPosition then totalInvested / totalPosition
        else position.average_cost
      total_invested := totalInvested
      current_position := totalPosition
      total_orders := position.total_orders + 1 }
  else
    { position with
      current_position := max 0 (position.current_position - fill.size) }

/-- Fold a list of `(size, price)` buy fills through `updateDCAPosition`. -/
def applyBuyFills (position : DCAPosition) (fills : List (ℚ × ℚ)) :
    DCAPosition :=
  fills.foldl
    (fun p f => updateDCAPosition p
      { orderId := 0, side := Side.buy, size := f.1, price := f.2 }) position

/-- Accumulator invariants of `applyBuyFills`: invested capital and position
are the running sums, and (for a nonempty fill list) the average cost is
their quotient. -/
theorem applyBuyFills_totals (fills : List (ℚ × ℚ)) :
    ∀ position : DCAPosition, 0 ≤ position.current_position →
      (∀ f ∈ fills, 0 < f.1) →
      (applyBuyFills position fills).total_invested
          = position.total_invested
            + (fills.map (fun f => f.1 * f.2)).sum ∧
      (applyBuyFills position fills).current_position
          = position.current_position + (fills.map (fun f => f.1)).sum ∧
      (fills ≠ [] →
        (applyBuyFills position fills).average_cost
          = (position.total_invested + (fills.map (fun f => f.1 * f.2)).sum)
            / (position.current_position
                + (fills.map (fun f => f.1)).sum)) := by
  induction fills with
  | nil =>
      intro position hpos hall
      refine ⟨by simp [applyBuyFills], by simp [applyBuyFills], ?_⟩
      intro h
      exact absurd rfl h
  | cons f rest ih =>
      intro position hpos hall
      have hf : 0 < f.1 := hall f (List.mem_cons_self f rest)
      have hstep : applyBuyFills position (f :: rest)
          = applyBuyFills (updateDCAPosition position
              { orderId := 0, side := Side.buy, size := f.1, price := f.2 })
            rest := rfl
      set p1 := updateDCAPosition position
        { orderId := 0, side := Side.buy, size := f.1, price := f.2 } with hp1
      have hcp : p1.current_position = position.current_position + f.1 := by
        simp [hp1, updateDCAPosition]
      have hti : p1.total_invested
          = position.total_invested + f.1 * f.2 := by
        simp [hp1, updateDCAPosition]
      have havg : p1.average_cost
          = (position.total_invested + f.1 * f.2)
            / (position.current_position + f.1) := by
        have hposc : 0 < position.current_position + f.1 := by linarith
        simp [hp1, updateDCAPosition, if_pos hposc]
      have hpos1 : 0 ≤ p1.current_position := by rw [hcp]; linarith
      have hall1 : ∀ g ∈ rest, 0 < g.1 :=
        fun g hg => hall g (List.mem_cons_of_mem f hg)
      obtain ⟨ih1, ih2, ih3⟩ := ih p1 hpos1 hall1
      rw [hstep]
      refine ⟨by rw [ih1, hti]; simp; ring, by rw [ih2, hcp]; simp; ring, ?_⟩
      intro _
      rcases eq_or_ne rest [] with hrest | hrest
      · subst hrest
        simp only [applyBuyFills, List.foldl_nil]
        rw [havg]
        simp
      · rw [ih3 hrest, hti, hcp]
        congr 1
        · simp; ring
        · simp; ring

/-- C4: starting from the empty DCA position, after any nonempty sequence
of buy fills of positive sizes `sᵢ` at prices `pᵢ` the average cost equals
`Σ sᵢ·pᵢ / Σ sᵢ` — hence it is independent of the fill order — and a sell
fill leaves `average_cost` and `total_invested` unchanged while reducing
`current_position` (floored at zero). -/
theorem dca_average_cost_spec :
    (∀ fills : List (ℚ × ℚ), (∀ f ∈ fills, 0 < f.1) → fills ≠ [] →
      (applyBuyFills initialDCAPosition fills).average_cost
        = (fills.map (fun f => f.1 * f.2)).sum
          / (fills.map (fun f => f.1)).sum) ∧
    (∀ fills fills2 : List (ℚ × ℚ), fills.Perm fills2 →
      (∀ f ∈ fills, 0 < f.1) → fills ≠ [] →
      (applyBuyFills initialDCAPosition fills).average_cost
        = (applyBuyFills initialDCAPosition fills2).average_cost) ∧
    (∀ (position : DCAPosition) (fill : OrderFill),
      fill.side = Side.sell →
      (updateDCAPosition position fill).average_cost
          = position.average_cost ∧
      (updateDCAPosition position fill).total_invested
          = position.total_invested ∧
      (updateDCAPosition position fill).current_position
          = max 0 (position.current_position - fill.size) ∧
      (0 < fill.size → 0 < position.current_position →
        (updateDCAPosition position fill).current_position
          < position.current_position)) := by
  have hmain : ∀ fills : List (ℚ × ℚ), (∀ f ∈ fills, 0 < f.1) →
      fills ≠ [] →
      (applyBuyFills initialDCAPosition fills).average_cost
        = (fills.map (fun f => f.1 * f.2)).sum
          / (fills.map (fun f => f.1)).sum := by
    intro fills hall hne
    have h := (applyBuyFills_totals fills initialDCAPosition
      (by simp [initialDCAPosition]) hall).2.2 hne
    rw [h]
    simp [initialDCAPosition]
  refine ⟨hmain, ?_, ?_⟩
  · intro fills fills2 hperm hall hne
    have hall2 : ∀ f ∈ fills2, 0 < f.1 :=
      fun f hf => hall f (hperm.mem_iff.mpr hf)
    have hne2 : fills2 ≠ [] := by
      intro h
      exact hne (List.Perm.eq_nil (h ▸ hperm))
    rw [hmain fills hall hne, hmain fills2 hall2 hne2,
      (hperm.map (fun f => f.1 * f.2)).sum_eq,
      (hperm.map (fun f => f.1)).sum_eq]
  · intro position fill hside
    have hnotbuy : ¬ (fill.side = Side.buy) := by
      rw [hside]
      intro h
      exact absurd h (by simp)
    refine ⟨by simp [updateDCAPosition, if_neg hnotbuy],
      by simp [updateDCAPosition, if_neg hnotbuy],
      by simp [updateDCAPosition, if_neg hnotbuy], ?_⟩
    intro hsize hcp
    simp only [updateDCAPosition, if_neg hnotbuy]
    rcases le_or_lt (position.current_position - fill.size) 0 with h | h
    · rw [max_eq_left h]
      exact hcp
    · rw [max_eq_right h.le]
      linarith

/-- Witness for C4: two buy fills of 2×$100 and 3×$50 give average cost
70, and a sell fill from the resulting position keeps the average cost and
invested capital while reducing the position. -/
theorem dca_average_cost_spec_witness :
    (applyBuyFills initialDCAPosition [(2, 100), (3, 50)]).average_cost
        = 70 ∧
    (updateDCAPosition (⟨2, 350, 70, 5⟩ : DCAPosition)
      (⟨7, Side.sell, 1, 80⟩ : OrderFill)).average_cost = 70 := by
  constructor
  · rw [dca_average_cost_spec.1 [(2, 100), (3, 50)] (by norm_num)
      (by simp)]
    norm_num
  · rw [(dca_average_cost_spec.2.2 (⟨2, 350, 70, 5⟩ : DCAPosition)
      (⟨7, Side.sell, 1, 80⟩ : OrderFill) rfl).1]

/-! ### C5: martingale order sizing and full-exit reset -/

/-- A recorded martingale sequence order (the fields `executeEntryOrder`
writes). -/
structure MartingaleOrder where
  price : ℚ
  size : ℚ
  order_number : ℕ
  amount_usd : ℚ
deriving DecidableEq, Repr

/-- Model of `MartingalePosition` from the martingale strategy. -/
structure MartingalePosition where
  orders : List MartingaleOrder
  total_position : ℚ
  total_invested : ℚ
  average_entry_price : ℚ
  highest_price_seen : ℚ
  entry_reference_price : ℚ
  is_in_position : Bool
  next_order_size : ℚ
  profit_target_price : ℚ
deriving DecidableEq, Repr

/-- The martingale configuration fields the modelled functions read. -/
structure MartingaleConfig where
  investmentAmount : ℚ
  base_order_size : ℚ
  step_multiplier : ℚ
  max_orders : ℕ
  profit_percentage : ℚ
  max_position_multiple : ℚ
deriving DecidableEq, Repr

/-- Model of `resetMartingalePosition`: a fresh sequence; price trackers keep the
strategy's current price, the next order size returns to the base size. -/
def resetMartingalePosition (config : MartingaleConfig)
    (currentPrice : ℚ) : MartingalePosition :=
  { orders := [], total_position := 0, total_invested := 0,
    average_entry_price := 0, highest_price_seen := currentPrice,
    entry_reference_price := currentPrice, is_in_position := false,
    next_order_size := config.base_order_size, profit_target_price := 0 }

/-- Model of `canPlaceOrder`: the safety gate checked before every entry order. -/
def canPlaceOrder (config : MartingaleConfig)
    (position : MartingalePosition) : Bool :=
  if config.max_orders ≤ position.orders.length then false
  else if config.investmentAmount * config.max_position_multiple
      < position.total_invested + position.next_order_size then false
  else true

/-- Model of `executeEntryOrder` (state effect): when the safety gate passes and the
exchange accepts the order (`success`), the order is recorded, the strategy
marks itself in-position and the next order size is multiplied by the step
multiplier; otherwise the position is unchanged. -/
def executeEntryOrder (config : MartingaleConfig)
    (position : MartingalePosition) (currentPrice : ℚ) (success : Bool) :
    MartingalePosition :=
  if ¬ (canPlaceOrder config position = true) then position
  else if success then
    { position with
      orders := position.orders ++
        [{ price := currentPrice, size := position.next_order_size / currentPrice,
           order_number := position.orders.length + 1,
           amount_usd := position.next_order_size }],
      is_in_position := true,
      next_order_size := position.next_order_size * config.step_multiplier }
  else position

/-- Model of `updateMartingalePosition`: a buy fill accumulates position and invested
capital and recomputes the average entry price and profit target; a sell
fill that empties the position resets the whole sequence, a partial sell
only reduces the position. -/
def updateMartingalePosition (config : MartingaleConfig)
    (position : MartingalePosition) (currentPrice : ℚ)
    (fill : OrderFill) : MartingalePosition :=
  if fill.side = Side.buy then
    let newInvestment := fill.size * fill.price
    let totalInvested := position.total_invested + newInvestment
    let totalPosition := position.total_position + fill.size
    let avg := if 0 < totalPosition then totalInvested / totalPosition
      else position.average_entry_price
    { position with
      average_entry_price := avg,
      total_invested := totalInvested,
      total_position := totalPosition,
      is_in_position := true,
      profit_target_price := avg * (1 + config.profit_percentage / 100) }
  else
    if max 0 (position.total_position - fill.size) = 0 then
      resetMartingalePosition config currentPrice
    else
      { position with
        total_position := max 0 (position.total_position - fill.size) }

/-- A run of successful entry orders at the given sequence of prices. -/
def runEntries (config : MartingaleConfig) (position : MartingalePosition) :
    List ℚ → MartingalePosition
  | [] => position
  | price :: rest =>
      runEntries config (executeEntryOrder config position price true) rest

/-- Next-order-size recurrence for a run of gated successful entries. -/
theorem runEntries_next_order_size (config : MartingaleConfig)
    (prices : List ℚ) :
    ∀ position : MartingalePosition,
      (∀ i : ℕ, i < prices.length →
        canPlaceOrder config
          (runEntries config position (prices.take i)) = true) →
      (runEntries config position prices).next_order_size
        = position.next_order_size
          * config.step_multiplier ^ prices.length := by
  induction prices with
  | nil => intro position hgates; simp [runEntries]
  | cons price rest ih =>
      intro position hgates
      have hgate0 : canPlaceOrder config position = true := by
        have h := hgates 0 (by simp)
        simpa [runEntries] using h
      have hstep : executeEntryOrder config position price true
          = { position with
              orders := position.orders ++
                [{ price := price,
                   size := position.next_order_size / price,
                   order_number := position.orders.length + 1,
                   amount_usd := position.next_order_size }],
              is_in_position := true,
              next_order_size :=
                position.next_order_size * config.step_multiplier } := by
        simp [executeEntryOrder, hgate0]
      have hgates1 : ∀ i : ℕ, i < rest.length →
          canPlaceOrder config
            (runEntries config (executeEntryOrder config position price true)
              (rest.take i)) = true := by
        intro i hi
        have h := hgates (i + 1) (by simpa using Nat.succ_lt_succ hi)
        simpa [runEntries] using h
      have := ih (executeEntryOrder config position price true) hgates1
      rw [runEntries, this, hstep]
      simp [pow_succ]
      ring

/-- C5: within one sequence started fresh, after `k` gated successful entry
orders `next_order_size` equals `base_order_size · step_multiplier^k`; and
a sell fill whose size clears the whole position resets `total_position`,
`total_invested` and `average_entry_price` to zero and `next_order_size`
back to `base_order_size`. -/
theorem martingale_sizing_and_reset (config : MartingaleConfig)
    (startPrice : ℚ) :
    (∀ prices : List ℚ,
      (∀ i : ℕ, i < prices.length →
        canPlaceOrder config
          (runEntries config (resetMartingalePosition config startPrice)
            (prices.take i)) = true) →
      (runEntries config (resetMartingalePosition config startPrice)
          prices).next_order_size
        = config.base_order_size
          * config.step_multiplier ^ prices.length) ∧
    (∀ (position : MartingalePosition) (currentPrice : ℚ)
        (fill : OrderFill),
      fill.side = Side.sell → position.total_position ≤ fill.size →
      (updateMartingalePosition config position currentPrice
          fill).total_position = 0 ∧
      (updateMartingalePosition config position currentPrice
          fill).total_invested = 0 ∧
      (updateMartingalePosition config position currentPrice
          fill).average_entry_price = 0 ∧
      (updateMartingalePosition config position currentPrice
          fill).next_order_size = config.base_order_size) := by
  constructor
  · intro prices hgates
    rw [runEntries_next_order_size config prices _ hgates]
    simp [resetMartingalePosition]
  · intro position currentPrice fill hside hsize
    have hnotbuy : ¬ (fill.side = Side.buy) := by
      rw [hside]
      intro h
      exact absurd h (by simp)
    have hmax : max 0 (position.total_position - fill.size) = 0 :=
      max_eq_left (by linarith)
    simp [updateMartingalePosition, if_neg hnotbuy, hmax,
      resetMartingalePosition]

/-- Concrete martingale configuration for the C5 witness: base size 10,
multiplier 2, generous safety limits. -/
def mCfgW : MartingaleConfig :=
  { investmentAmount := 1000, base_order_size := 10, step_multiplier := 2,
    max_orders := 5, profit_percentage := 1, max_position_multiple := 10 }

/-- Witness for C5: two gated successful entries from a fresh sequence give
`next_order_size = 10·2² = 40`, and a full-exit sell fill resets the next
order size to the base size. -/
theorem martingale_sizing_and_reset_witness :
    (runEntries mCfgW (resetMartingalePosition mCfgW 100)
        [100, 90]).next_order_size = 40 ∧
    (updateMartingalePosition mCfgW
        (runEntries mCfgW (resetMartingalePosition mCfgW 100) [100, 90])
        90 (⟨3, Side.sell, 5, 95⟩ : OrderFill)).next_order_size = 10 := by
  have h := martingale_sizing_and_reset mCfgW 100
  constructor
  · rw [h.1 [100, 90] ?gates]
    · norm_num [mCfgW]
    case gates =>
      intro i hi
      simp only [List.length_cons, List.length_nil] at hi
      interval_cases i <;>
        norm_num [runEntries, executeEntryOrder, canPlaceOrder,
          resetMartingalePosition, mCfgW, List.take]
  · have hr := (h.2
      (runEntries mCfgW (resetMartingalePosition mCfgW 100) [100, 90])
      90 (⟨3, Side.sell, 5, 95⟩ : OrderFill) rfl ?hle).2.2.2
    · rw [hr]
      norm_num [mCfgW]
    case hle =>
      norm_num [runEntries, executeEntryOrder, canPlaceOrder,
        resetMartingalePosition, mCfgW]

/-! ### C6: portfolio configuration validation -/

/-- Model of `validateConfiguration` from the portfolio strategy, applied to the
list of target allocation values: it rejects an allocation sum farther
than 0.001 from 1.0, then rejects fewer than 2 or more than 10 assets
(the per-asset range check after these only warns).  Thrown errors are
modelled by `Except.error`. -/
def validatePortfolioConfiguration (allocations : List ℚ) :
    Except String Unit :=
  if 1/1000 < |allocations.sum - 1| then
    Except.error "Target allocations must sum to 1.0"
  else if allocations.length < 2 ∨ 10 < allocations.length then
    Except.error "Portfolio must have 2-10 assets"
  else
    Except.ok ()

/-- C6: portfolio validation succeeds exactly when the allocation sum is
within 0.001 of 1.0 and the asset count lies in `[2, 10]`; in particular
sums 0.90 and 1.10 are rejected while 0.9995 and 1.0005 are accepted. -/
theorem portfolio_validation_spec :
    (∀ allocations : List ℚ,
      validatePortfolioConfiguration allocations = Except.ok () ↔
        (|allocations.sum - 1| ≤ 1/1000 ∧ 2 ≤ allocations.length ∧
          allocations.length ≤ 10)) ∧
    validatePortfolioConfiguration [45/100, 45/100] ≠ Except.ok () ∧
    validatePortfolioConfiguration [55/100, 55/100] ≠ Except.ok () ∧
    validatePortfolioConfiguration [1/2, 4995/10000] = Except.ok () ∧
    validatePortfolioConfiguration [1/2, 5005/10000] = Except.ok () := by
  have hiff : ∀ allocations : List ℚ,
      validatePortfolioConfiguration allocations = Except.ok () ↔
        (|allocations.sum - 1| ≤ 1/1000 ∧ 2 ≤ allocations.length ∧
          allocations.length ≤ 10) := by
    intro allocations
    unfold validatePortfolioConfiguration
    split_ifs with h1 h2
    · refine iff_of_false (by simp) ?_
      rintro ⟨ha, -, -⟩
      linarith
    · refine iff_of_false (by simp) ?_
      rintro ⟨-, hb, hc⟩
      rcases h2 with h | h <;> omega
    · push_neg at h1 h2
      exact iff_of_true rfl ⟨h1, by omega, by omega⟩
  refine ⟨hiff, ?_, ?_, ?_, ?_⟩
  · intro h
    rw [hiff] at h
    have := h.1
    rw [abs_le] at this
    norm_num at this
  · intro h
    rw [hiff] at h
    have := h.1
    rw [abs_le] at this
    norm_num at this
  · rw [hiff]
    refine ⟨by rw [abs_le]; norm_num, by simp, by simp⟩
  · rw [hiff]
    refine ⟨by rw [abs_le]; norm_num, by simp, by simp⟩

/-! ### C8: configuration update of the base strategy -/

/-- A representative numeric subset of the declared `StrategyConfig`
fields (the merge treats all fields uniformly). -/
structure StrategyConfig where
  investmentSize : ℚ
  maxPosition : ℚ
deriving DecidableEq, Repr

/-- A configuration patch (`Partial<StrategyConfig>`): absent fields keep
their old value under the object-spread merge. -/
structure StrategyConfigUpdate where
  investmentSize : Option ℚ
  maxPosition : Option ℚ
deriving DecidableEq, Repr

/-- The object-spread merge `{...config, ...newConfig}`. -/
def mergeConfig (config : StrategyConfig) (patch : StrategyConfigUpdate) :
    StrategyConfig :=
  { investmentSize := patch.investmentSize.getD config.investmentSize,
    maxPosition := patch.maxPosition.getD config.maxPosition }

/-- The lifecycle-relevant state of a strategy instance. -/
structure BaseStrategyState where
  isRunning : Bool
  config : StrategyConfig
deriving DecidableEq, Repr

/-- Model of `stop()` of every concrete strategy (grid, DCA, martingale, portfolio)
sets `isRunning = false` before cleaning up. -/
def stopStrategy (s : BaseStrategyState) : BaseStrategyState :=
  { s with isRunning := false }

/-- Model of `start()` of every concrete strategy sets `isRunning = true`. -/
def startStrategy (s : BaseStrategyState) : BaseStrategyState :=
  { s with isRunning := true }

/-- Result of `updateConfig`, recording which lifecycle calls happened. -/
structure UpdateConfigResult where
  state : BaseStrategyState
  stopCalled : Bool
  startCalled : Bool
deriving DecidableEq, Repr

/-- Model of `BaseTradingStrategy.updateConfig`: stop when running, merge the patch
into the config, then start again if `this.isRunning` holds — but that flag
is re-read *after* `stop()` has cleared it. -/
def updateConfig (s : BaseStrategyState) (patch : StrategyConfigUpdate) :
    UpdateConfigResult :=
  let step1 : BaseStrategyState × Bool :=
    if s.isRunning then (stopStrategy s, true) else (s, false)
  let s2 : BaseStrategyState :=
    { step1.1 with config := mergeConfig step1.1.config patch }
  let step3 : BaseStrategyState × Bool :=
    if s2.isRunning then (startStrategy s2, true) else (s2, false)
  { state := step3.1, stopCalled := step1.2, startCalled := step3.2 }

/-- C8 (code bug): `updateConfig` merges the patch and stops a running
strategy, but it never restarts it — the restart guard re-reads
`this.isRunning` after `stop()` has already cleared it, so `start()` is
never invoked and the strategy is always left stopped.  This contradicts
the specified stop → apply → restart contract. -/
theorem updateConfig_never_restarts (s : BaseStrategyState)
    (patch : StrategyConfigUpdate) :
    (updateConfig s patch).startCalled = false ∧
    (updateConfig s patch).state.isRunning = false ∧
    (updateConfig s patch).stopCalled = s.isRunning ∧
    (updateConfig s patch).state.config = mergeConfig s.config patch := by
  cases hrun : s.isRunning <;>
    simp [updateConfig, stopStrategy, startStrategy, hrun]

/-! ### Grid strategy state machine (C3, C7) -/

/-- An entry of the grid live-order map: `{price, side, level_index}`. -/
structure ActiveOrderInfo where
  price : ℚ
  side : Side
  level_index : ℕ
deriving DecidableEq, Repr

/-- JavaScript `Map.set`: update in place when the key exists, else
append. -/
def mapSet (m : List (ℕ × ActiveOrderInfo)) (k : ℕ) (v : ActiveOrderInfo) :
    List (ℕ × ActiveOrderInfo) :=
  if m.any (fun p => p.1 == k) then
    m.map (fun p => if p.1 == k then (k, v) else p)
  else m ++ [(k, v)]

/-- JavaScript `Map.get`. -/
def mapGet (m : List (ℕ × ActiveOrderInfo)) (k : ℕ) :
    Option ActiveOrderInfo :=
  (m.find? (fun p => p.1 == k)).map (fun p => p.2)

/-- JavaScript `Map.delete`. -/
def mapDelete (m : List (ℕ × ActiveOrderInfo)) (k : ℕ) :
    List (ℕ × ActiveOrderInfo) :=
  m.filter (fun p => !(p.1 == k))

/-- The grid strategy configuration after metadata extraction (symbol and
stop-loss metadata omitted; `geomRatio` is the modelled exact geometric
ratio, unused in arithmetic mode). -/
structure GridStrategyConfig where
  investmentAmount : ℚ
  gridQuantity : ℕ
  gridMode : GridMode
  upperBound : Option ℚ
  lowerBound : Option ℚ
  activeLevels : Option ℕ
  geomRatio : ℚ
deriving DecidableEq, Repr

/-- The `utilConfig` object the grid strategy passes to the shared grid
utility (no `basePrice`). -/
def toUtilConfig (config : GridStrategyConfig) : GridConfig :=
  { gridQuantity := config.gridQuantity, upperBound := config.upperBound,
    lowerBound := config.lowerBound, basePrice := none,
    gridMode := config.gridMode, activeLevels := config.activeLevels }

/-- Model of `GridPosition` of the grid strategy (the `nearest_index` and
`grid_levels` caches are omitted: the fill path regenerates levels from the
configuration and never reads them). -/
structure GridPosition where
  base_position : ℚ
  quote_balance : ℚ
  active_orders : List (ℕ × ActiveOrderInfo)
  executed_levels : List ℕ
deriving DecidableEq, Repr

/-- Grid strategy state: its position and the last observed price. -/
structure GridState where
  pos : GridPosition
  currentPrice : ℚ
deriving DecidableEq, Repr

/-- Model of `roundSize` with the default 4 size decimals of the non-exchange
metadata fallback. -/
def roundSize (szDecimals : ℕ) (size : ℚ) : ℚ :=
  ((round (size * 10 ^ szDecimals) : ℤ) : ℚ) / 10 ^ szDecimals

/-- An order request sent to the exchange (symbol omitted). -/
structure OrderRequest where
  side : Side
  size : ℚ
  price : ℚ
deriving DecidableEq, Repr

/-- The level triple `{index, price, side}` handed to
`placeOrdersForLevels`. -/
structure LevelRef where
  index : ℕ
  price : ℚ
  side : Side
deriving DecidableEq, Repr

/-- Model of `placeOrdersForLevels`: cap the batch at 10 levels (`splice(10)`
discards the excess), build one request per remaining level with the
per-level order size, submit them in bulk, and register every successfully
placed order (exchange responses are `some orderId` on success) in the
live-order map.  Returns the submitted requests and the updated map. -/
def placeOrdersForLevels (config : GridStrategyConfig)
    (activeOrders : List (ℕ × ActiveOrderInfo)) (levels : List LevelRef)
    (responses : List (Option ℕ)) :
    List OrderRequest × List (ℕ × ActiveOrderInfo) :=
  let capped := levels.take 10
  let orderSize := roundSize 4
    (config.investmentAmount / (config.gridQuantity : ℚ))
  let orderRequests := capped.map (fun l =>
    { side := l.side, size := orderSize, price := l.price : OrderRequest })
  let newMap := (capped.zip responses).foldl
    (fun acc p =>
      match p.2 with
      | some orderId => mapSet acc orderId
          { price := p.1.price, side := p.1.side, level_index := p.1.index }
      | none => acc) activeOrders
  (orderRequests, newMap)

/-- C7: the grid order-placement routine never submits more than 10 orders
in one batch — the submitted requests are exactly those built from the
first 10 levels, and the excess levels are discarded (no state records
them, so nothing is queued). -/
theorem placeOrdersForLevels_cap (config : GridStrategyConfig)
    (activeOrders : List (ℕ × ActiveOrderInfo)) (levels : List LevelRef)
    (responses : List (Option ℕ)) :
    (placeOrdersForLevels config activeOrders levels
        responses).1.length ≤ 10 ∧
    (placeOrdersForLevels config activeOrders levels responses).1
      = (levels.take 10).map (fun l =>
          { side := l.side,
            size := roundSize 4
              (config.investmentAmount / (config.gridQuantity : ℚ)),
            price := l.price : OrderRequest }) := by
  refine ⟨?_, rfl⟩
  simp [placeOrdersForLevels]

/-- Model of `placeFreshGridOrders`: recompute the active selection at the current
price with an *empty* executed set ("fresh start, ignore executed levels"),
slice each side at the raw `activeLevels || 2`, and place the combined
levels.  A generation error (caught by the fill handler) leaves the state
as it was — with the live-order map already cleared. -/
def placeFreshGridOrders (config : GridStrategyConfig) (s : GridState)
    (responses : List (Option ℕ)) : GridState :=
  let activeLevels := jsOrNat config.activeLevels 2
  match getDeterministicActiveLevels (toUtilConfig config) s.currentPrice
      config.geomRatio [] with
  | Except.error _ => s
  | Except.ok r =>
      let finalBuyLevels := r.activeBuyLevels.take activeLevels
      let finalSellLevels := r.activeSellLevels.take activeLevels
      let freshLevels := (finalBuyLevels ++ finalSellLevels).map
        (fun l =>
          { index := l.index, price := l.price, side := l.side : LevelRef })
      if freshLevels.length = 0 then s
      else
        { s with pos := { s.pos with active_orders :=
            (placeOrdersForLevels config s.pos.active_orders freshLevels
              responses).2 } }

/-- Model of `updatePositionAfterFill`: look the fill's order up in the live map
(a fill for an unknown order only logs a warning and changes nothing),
adjust the base/quote balances by side, mark the level executed and delete
the live order. -/
def updatePositionAfterFill (s : GridState) (fill : OrderFill) :
    GridState :=
  match mapGet s.pos.active_orders fill.orderId with
  | none => s
  | some orderInfo =>
      let pos := s.pos
      let pos2 :=
        if fill.side = Side.buy then
          { pos with
            base_position := pos.base_position + fill.size,
            quote_balance := pos.quote_balance - fill.size * fill.price }
        else
          { pos with
            base_position := pos.base_position - fill.size,
            quote_balance := pos.quote_balance + fill.size * fill.price }
      { s with pos := { pos2 with
          executed_levels := setAdd pos2.executed_levels
            orderInfo.level_index,
          active_orders := mapDelete pos2.active_orders fill.orderId } }

/-- Model of `handleOrderFill`, the processed path (a fill is processed when the
strategy is running, the symbol matches and no other fill is in flight;
otherwise the state is unchanged): update the position, set the current
price to the fill price, cancel all remaining orders (the clean-slate
policy always clears the live map), and place the fresh selection. -/
def handleOrderFill (config : GridStrategyConfig) (s : GridState)
    (fill : OrderFill) (responses : List (Option ℕ)) : GridState :=
  let s1 := updatePositionAfterFill s fill
  let s2 : GridState := { s1 with currentPrice := fill.price }
  let s3 : GridState :=
    { s2 with pos := { s2.pos with active_orders := [] } }
  placeFreshGridOrders config s3 responses

/-- Model of `placeInitialGridOrders`: the selection at start time, honouring the
recorded executed levels, placed without per-side re-slicing. -/
def placeInitialGridOrders (config : GridStrategyConfig) (s : GridState)
    (responses : List (Option ℕ)) : GridState :=
  match getDeterministicActiveLevels (toUtilConfig config) s.currentPrice
      config.geomRatio s.pos.executed_levels with
  | Except.error _ => s
  | Except.ok r =>
      let allLevels := (r.activeBuyLevels ++ r.activeSellLevels).map
        (fun l =>
          { index := l.index, price := l.price, side := l.side : LevelRef })
      if allLevels.length = 0 then s
      else
        { s with pos := { s.pos with active_orders :=
            (placeOrdersForLevels config s.pos.active_orders allLevels
              responses).2 } }

/-- The freshly constructed grid position/state at the first observed
price: no orders, no executed levels, full quote balance. -/
def initialGridState (config : GridStrategyConfig) (p0 : ℚ) : GridState :=
  { pos := { base_position := 0, quote_balance := config.investmentAmount,
             active_orders := [], executed_levels := [] },
    currentPrice := p0 }

/-- Reachable grid strategy states: a started strategy (initialize fetched
the price `p0`; start cancelled strays and placed the initial grid with
whatever exchange responses arrived), followed by any number of processed
fills. -/
inductive GridReachable (config : GridStrategyConfig) : GridState → Prop
  | started (p0 : ℚ) (responses : List (Option ℕ)) :
      GridReachable config
        (placeInitialGridOrders config (initialGridState config p0)
          responses)
  | fill (s : GridState) (f : OrderFill)
      (responses : List (Option ℕ)) :
      GridReachable config s →
      GridReachable config (handleOrderFill config s f responses)

/-- The operation `mapSet` grows the map by at most one entry. -/
theorem mapSet_length (m : List (ℕ × ActiveOrderInfo)) (k : ℕ)
    (v : ActiveOrderInfo) :
    (mapSet m k v).length ≤ m.length + 1 := by
  unfold mapSet
  split_ifs with h
  · rw [List.length_map]
    omega
  · rw [List.length_append]
    simp

/-- Registering a batch of responses grows the map by at most the number
of levels placed. -/
theorem foldl_mapSet_length (pairs : List (LevelRef × Option ℕ)) :
    ∀ m : List (ℕ × ActiveOrderInfo),
      (pairs.foldl
        (fun acc p =>
          match p.2 with
          | some orderId => mapSet acc orderId
              { price := p.1.price, side := p.1.side,
                level_index := p.1.index }
          | none => acc) m).length ≤ m.length + pairs.length := by
  induction pairs with
  | nil => intro m; simp
  | cons p rest ih =>
      intro m
      rw [List.foldl_cons]
      cases hp : p.2 with
      | none =>
          simp only [hp]
          calc _ ≤ m.length + rest.length := ih m
          _ ≤ m.length + (p :: rest).length := by simp
      | some orderId =>
          simp only [hp]
          calc _ ≤ (mapSet m orderId
                { price := p.1.price, side := p.1.side,
                  level_index := p.1.index }).length + rest.length :=
              ih _
          _ ≤ (m.length + 1) + rest.length := by
              have := mapSet_length m orderId
                { price := p.1.price, side := p.1.side,
                  level_index := p.1.index }
              omega
          _ = m.length + (p :: rest).length := by
              simp [List.length_cons]
              omega

/-- The active sides returned by `getDeterministicActiveLevels` hold at
most the clamped per-side count each. -/
theorem getDeterministicActiveLevels_lengths (config : GridConfig)
    (currentPrice : ℚ) (geomRatio : ℚ) (executed : List ℕ)
    (r : DeterministicActiveLevels)
    (hok : getDeterministicActiveLevels config currentPrice geomRatio
        executed = Except.ok r) :
    r.activeBuyLevels.length ≤ clampedActiveLevels config ∧
    r.activeSellLevels.length ≤ clampedActiveLevels config := by
  unfold getDeterministicActiveLevels at hok
  cases hgen : generateGridLevels config (some currentPrice) geomRatio with
  | error e => rw [hgen] at hok; exact absurd hok (by simp)
  | ok gridResult =>
      rw [hgen] at hok
      simp only [Except.ok.injEq] at hok
      subst hok
      constructor
      · simp only [getActiveLevels_buyLevels, List.length_take]
        exact min_le_left _ _
      · simp only [getActiveLevels_sellLevels, List.length_take]
        exact min_le_left _ _

/-- C3 (amended): after processing any single fill event — from *any*
prior state, reachable or not — the live-order map holds at most the
clamped `activeLevelsPerSide` orders per side, hence at most
`2 × activeLevelsPerSide` entries (fewer when fewer levels are available).
The executed-set disjointness of the original claim does not hold: fresh
placement deliberately ignores executed levels (see the
counterexample). -/
theorem handleOrderFill_live_order_bound (config : GridStrategyConfig)
    (s : GridState) (fill : OrderFill) (responses : List (Option ℕ)) :
    (handleOrderFill config s fill
        responses).pos.active_orders.length
      ≤ 2 * clampedActiveLevels (toUtilConfig config) := by
  unfold handleOrderFill placeFreshGridOrders
  cases hsel : getDeterministicActiveLevels (toUtilConfig config)
      fill.price config.geomRatio [] with
  | error e =>
      simp only [hsel]
      simp
  | ok r =>
      obtain ⟨hblen, hslen⟩ := getDeterministicActiveLevels_lengths
        (toUtilConfig config) fill.price config.geomRatio [] r hsel
      simp only [hsel]
      split_ifs with hz
      · simp
      · simp only [placeOrdersForLevels]
        have hfold := foldl_mapSet_length
          ((((r.activeBuyLevels.take (jsOrNat config.activeLevels 2))
              ++ (r.activeSellLevels.take (jsOrNat config.activeLevels 2))).map
            (fun l =>
              { index := l.index, price := l.price,
                side := l.side : LevelRef })).take 10
            |>.zip responses) []
        refine le_trans hfold ?_
        rw [List.length_nil]
        have hzip : ∀ (a : List (LevelRef × Option ℕ)), 0 + a.length
            = a.length := by simp
        rw [hzip]
        have h1 : ((((r.activeBuyLevels.take
              (jsOrNat config.activeLevels 2))
              ++ (r.activeSellLevels.take
                (jsOrNat config.activeLevels 2))).map
            (fun l =>
              { index := l.index, price := l.price,
                side := l.side : LevelRef })).take 10).length
            ≤ r.activeBuyLevels.length + r.activeSellLevels.length := by
          rw [List.length_take, List.length_map, List.length_append]
          have hb2 : (r.activeBuyLevels.take
              (jsOrNat config.activeLevels 2)).length
              ≤ r.activeBuyLevels.length := by
            rw [List.length_take]; exact min_le_right _ _
          have hs2 : (r.activeSellLevels.take
              (jsOrNat config.activeLevels 2)).length
              ≤ r.activeSellLevels.length := by
            rw [List.length_take]; exact min_le_right _ _
          exact le_trans (min_le_right _ _) (by omega)
        calc ((((r.activeBuyLevels.take (jsOrNat config.activeLevels 2))
              ++ (r.activeSellLevels.take
                (jsOrNat config.activeLevels 2))).map
            (fun l =>
              { index := l.index, price := l.price,
                side := l.side : LevelRef })).take 10
            |>.zip responses).length
            ≤ ((((r.activeBuyLevels.take (jsOrNat config.activeLevels 2))
              ++ (r.activeSellLevels.take
                (jsOrNat config.activeLevels 2))).map
            (fun l =>
              { index := l.index, price := l.price,
                side := l.side : LevelRef })).take 10).length := by
              rw [List.length_zip]
              exact min_le_left _ _
        _ ≤ r.activeBuyLevels.length + r.activeSellLevels.length := h1
        _ ≤ 2 * clampedActiveLevels (toUtilConfig config) := by omega

/-- Concrete grid configuration for the C3 counterexample: five arithmetic
levels at 10, 20, 30, 40, 50 and two active levels per side. -/
def gridCfg3 : GridStrategyConfig :=
  { investmentAmount := 100, gridQuantity := 5,
    gridMode := GridMode.arithmetic, upperBound := some 50,
    lowerBound := some 10, activeLevels := some 2, geomRatio := 1 }

/-- C3 counterexample: start at price 25 (live orders at levels 1, 0, 2,
3); a buy fill of the level-1 order at price 20 marks level 1 executed; a
further buy fill of the level-0 order at price 10 then re-places levels 1
and 2 — the fresh selection ignores the executed set — so the live-order
map then contains level index 1, which is in the executed set: the claimed
disjointness fails on a reachable state. -/
theorem grid_fill_executed_not_disjoint :
    ∃ s : GridState, GridReachable gridCfg3 s ∧
      ∃ (f : OrderFill) (responses : List (Option ℕ)),
        ¬ (∀ e ∈ (handleOrderFill gridCfg3 s f
              responses).pos.active_orders,
            e.2.level_index ∉
              (handleOrderFill gridCfg3 s f
                responses).pos.executed_levels) := by
  refine ⟨handleOrderFill gridCfg3
      (placeInitialGridOrders gridCfg3 (initialGridState gridCfg3 25)
        [some 1, some 2, some 3, some 4])
      ⟨1, Side.buy, 1, 20⟩ [some 5, some 6, some 7],
    GridReachable.fill _ _ _ (GridReachable.started 25 _),
    ⟨5, Side.buy, 1, 10⟩, [some 8, some 9], ?_⟩
  intro hdisj
  have hfinal : handleOrderFill gridCfg3
      (handleOrderFill gridCfg3
        (placeInitialGridOrders gridCfg3 (initialGridState gridCfg3 25)
          [some 1, some 2, some 3, some 4])
        ⟨1, Side.buy, 1, 20⟩ [some 5, some 6, some 7])
      ⟨5, Side.buy, 1, 10⟩ [some 8, some 9]
      = ⟨⟨2, 70, [(8, ⟨20, Side.sell, 1⟩), (9, ⟨30, Side.sell, 2⟩)],
          [1, 0]⟩, 10⟩ := by
    norm_num [handleOrderFill, updatePositionAfterFill,
      placeFreshGridOrders, placeInitialGridOrders, initialGridState,
      mapGet, mapDelete, mapSet, setAdd, getDeterministicActiveLevels,
      getActiveLevels, generateGridLevels, generateGridPrices, roundPrice,
      findNearestPriceIndex, jsOr, jsOrNat, clampedActiveLevels,
      toUtilConfig, placeOrdersForLevels, roundSize, gridCfg3,
      List.mergeSort, List.merge, List.enum, List.enumFrom, List.filter,
      List.foldl, List.find?, List.any, List.zip, List.zipWith,
      round_eq, Int.floor_eq_iff, abs_of_pos, abs_of_neg, abs_of_nonneg]
  rw [hfinal] at hdisj
  have h8 := hdisj (8, ⟨20, Side.sell, 1⟩) (by simp)
  simp at h8

end Nimbus
